import Mathlib

/-!
Verification of the schedule-grid core of src/ScheduleTable.tsx:
the time-axis construction (TIMES), the block coordinate mapper of
DraggableSchedule, the color assigner (getColor), the drag-context table
derivation (activeTableId) and the grid click targets.

Machine numbers of the source language are modelled as Int (negative
values such as indexOf misses are representable); array accesses that can
yield undefined are modelled as Option.
-/

/-- Modelled from the spec: the fixed ordered weekday tokens `DAY_LABELS`
live in constants.ts, which is not among the given sources; the spec's
scenario fixes the day set ["월","화","수","목","금"] in column order. -/
def DAY_LABELS : List String := ["월", "화", "수", "목", "금"]

namespace CellSize

/-- Modelled from the spec: `CellSize.WIDTH` lives in constants.ts, not
among the given sources; the spec scenario fixes cellWidth = 80. -/
def WIDTH : Int := 80

/-- Modelled from the spec: `CellSize.HEIGHT` lives in constants.ts, not
among the given sources; the spec leaves the cell height symbolic, so a
fixed positive constant is used. -/
def HEIGHT : Int := 30

end CellSize

/-- Modelled from the spec: the minute-unit constant `분` lives in
constants.ts, not among the given sources; times are measured here in
minutes after the fixed base time, so the unit is 1. -/
def minuteUnit : Nat := 1

/-- The time axis of ScheduleTable.tsx lines 29-39: 18 rows of 30-minute
stride followed by 6 rows of 55-minute stride starting at 18*30 minutes.
Each element is the (start, end) pair of minutes after the base time that
the row's label displays (the string rendering via parseHnM lives in
utils.ts, not among the given sources; the displayed window is the pair
itself: 30-minute span for the first 18 rows, 50-minute span for the
last 6). -/
def TIMES : List (Nat × Nat) :=
  (((List.range 18).map (fun k => 0 + k * 30 * minuteUnit)).map
      (fun v => (v, v + 30 * minuteUnit))) ++
  (((List.range 6).map (fun k => 18 * 30 * minuteUnit + k * 55 * minuteUnit)).map
      (fun v => (v, v + 50 * minuteUnit)))

structure Lecture where
  id : String
  title : String
  deriving DecidableEq, Repr

structure Schedule where
  day : String
  range : List Nat
  room : String
  lecture : Lecture
  deriving DecidableEq, Repr

/-- A pixel rectangle: the inline style of the positioned block. -/
structure Rect where
  left : Int
  top : Int
  width : Int
  height : Int
  deriving DecidableEq, Repr

/-- The source language's Array.prototype.indexOf: 0-based index of the
first occurrence, -1 when absent. -/
def jsIndexOf (xs : List String) (x : String) : Int :=
  if x ∈ xs then ((xs.indexOf x : Nat) : Int) else -1

/-- The geometry of DraggableSchedule (ScheduleTable.tsx lines 158-172):
leftIndex = DAY_LABELS.indexOf(day), topIndex = range[0] - 1,
size = range.length, and the block's inline style rectangle.
An empty range has no first element (range[0] is undefined in the source
language, so no finite top coordinate exists): modelled as none. -/
def position (day : String) (range : List Nat) : Option Rect :=
  match range with
  | [] => none
  | first :: rest =>
    some { left := 120 + CellSize.WIDTH * jsIndexOf DAY_LABELS day + 1
         , top := 40 + (((first : Int) - 1) * CellSize.HEIGHT + 1)
         , width := CellSize.WIDTH - 1
         , height := CellSize.HEIGHT * ((rest.length : Int) + 1) - 1 }

/-- Boolean check that each list element is its predecessor plus one. -/
def contiguousB : List Nat → Bool
  | [] => true
  | [_] => true
  | a :: b :: rest => (b == a + 1) && contiguousB (b :: rest)

/-- A slot range is contiguous when each element is the predecessor
plus one. -/
def Contiguous (r : List Nat) : Prop :=
  contiguousB r = true

instance : DecidablePred Contiguous := fun r =>
  inferInstanceAs (Decidable (contiguousB r = true))

/-- C6: the time axis is a fixed ordered sequence of exactly 24 row
labels; TIMES is a constant taking no input. -/
theorem times_axis_has_24_rows : TIMES.length = 24 := by
  decide

/-- C7: time-axis rows 19 through 24 (indices 18+k, k = 0..5) start at
18*30 + k*55 minutes after the base time, so they advance in 55-minute
increments, each label displays a 50-minute window, and row 19 starts
exactly where row 18 ends. -/
theorem times_evening_rows_stride :
    (∀ k, k < 6 →
      TIMES.get? (18 + k) = some (18 * 30 + k * 55, 18 * 30 + k * 55 + 50)) ∧
    (∃ s, TIMES.get? 17 = some (s, 18 * 30)) := by
  constructor
  · decide
  · exact ⟨510, by decide⟩

/-- Witness for C7 at k = 2: row 21 starts at 18*30 + 2*55 = 650 minutes
and its label ends 50 minutes later. -/
theorem times_evening_rows_stride_witness :
    TIMES.get? (18 + 2) = some (18 * 30 + 2 * 55, 18 * 30 + 2 * 55 + 50) :=
  times_evening_rows_stride.left 2 (by decide)

/-- C1: for every valid day label and non-empty contiguous slot range,
the rendered block's rectangle is the affine transform
left = 120 + dayIndex * cellWidth + 1, top = 40 + (first - 1) * cellHeight + 1,
width = cellWidth - 1, height = cellHeight * length - 1, where dayIndex is
the 0-based position of the day in DAY_LABELS. -/
theorem position_affine (d : String) (first : Nat) (rest : List Nat)
    (hd : d ∈ DAY_LABELS) (_hc : Contiguous (first :: rest)) :
    position d (first :: rest) =
      some { left := 120 + ((DAY_LABELS.indexOf d : Nat) : Int) * CellSize.WIDTH + 1
           , top := 40 + ((first : Int) - 1) * CellSize.HEIGHT + 1
           , width := CellSize.WIDTH - 1
           , height := CellSize.HEIGHT * ((rest.length : Int) + 1) - 1 } := by
  simp only [position, jsIndexOf, if_pos hd, Option.some.injEq, Rect.mk.injEq]
  refine ⟨by ring, by ring, trivial, trivial⟩

/-- Witness for C1: the spec's scenario, position("화", [3,4,5]) with
dayIndex 1 gives left = 201, top = 101, width = 79, height = 89. -/
theorem position_affine_witness :
    position "화" [3, 4, 5] = some ⟨201, 101, 79, 89⟩ :=
  (position_affine "화" 3 [4, 5] (by decide) (by decide)).trans (by decide)

/-- C9: for a fixed range, two distinct valid day labels give blocks with
distinct left coordinates whose horizontal extents (left to left + width)
do not overlap. -/
theorem position_day_disjoint (d1 d2 : String) (first : Nat) (rest : List Nat)
    (rA rB : Rect)
    (h1 : d1 ∈ DAY_LABELS) (h2 : d2 ∈ DAY_LABELS) (hne : d1 ≠ d2)
    (hA : position d1 (first :: rest) = some rA)
    (hB : position d2 (first :: rest) = some rB) :
    rA.left ≠ rB.left ∧
      (rA.left + rA.width < rB.left ∨ rB.left + rB.width < rA.left) := by
  have hij : DAY_LABELS.indexOf d1 ≠ DAY_LABELS.indexOf d2 :=
    fun h => hne ((List.indexOf_inj h1 h2).mp h)
  simp only [position, jsIndexOf, if_pos h1, if_pos h2, Option.some.injEq] at hA hB
  subst hA
  subst hB
  simp only [CellSize.WIDTH]
  omega

/-- Witness for C9: days "월" (index 0) and "수" (index 2) with range [1]
give lefts 121 and 281; extents [121,200] and [281,360] are disjoint. -/
theorem position_day_disjoint_witness :
    ((121 : Int) ≠ 281) ∧ ((121 : Int) + 79 < 281 ∨ (281 : Int) + 79 < 121) :=
  position_day_disjoint "월" "수" 1 [] ⟨121, 41, 79, 29⟩ ⟨281, 41, 79, 29⟩
    (by decide) (by decide) (by decide) (by decide) (by decide)

/-- C4 counterexample: a day label outside the fixed day set does not
fail loudly; the mapper still produces a rendered rectangle (indexOf
yields -1 and the arithmetic goes through). -/
theorem position_invalid_day_still_renders :
    ¬ ("없음" ∈ DAY_LABELS) ∧ position "없음" [1] ≠ none := by
  decide

/-- C4 amended: contract violations degrade silently rather than fail
loudly. A day label outside the fixed day set yields indexOf = -1 and the
block is still rendered, pinned at left = 120 - cellWidth + 1; an empty
slot range produces no positioned rectangle (range[0] is undefined, so no
finite top coordinate exists), again without any error being raised. -/
theorem position_contract_violation_silent :
    (∀ d first rest, d ∉ DAY_LABELS →
      position d (first :: rest) =
        some { left := 120 - CellSize.WIDTH + 1
             , top := 40 + (((first : Int) - 1) * CellSize.HEIGHT + 1)
             , width := CellSize.WIDTH - 1
             , height := CellSize.HEIGHT * ((rest.length : Int) + 1) - 1 }) ∧
    (∀ d, position d [] = none) := by
  constructor
  · intro d first rest hd
    simp only [position, jsIndexOf, if_neg hd, Option.some.injEq, Rect.mk.injEq]
    refine ⟨by ring, trivial, trivial, trivial⟩
  · intro d
    rfl

/-- Witness for C4 amended: the unknown day "x" with range [2,3] renders
at left = 41, and the empty range yields no rectangle. -/
theorem position_contract_violation_silent_witness :
    position "x" [2, 3] = some ⟨41, 71, 79, 59⟩ ∧ position "x" [] = none :=
  ⟨(position_contract_violation_silent.left "x" 2 [3] (by decide)).trans (by decide),
   position_contract_violation_silent.right "x"⟩

/-- The fixed color palette of getColor (ScheduleTable.tsx line 54). -/
def colors : List String := ["#fdd", "#ffd", "#dff", "#ddf", "#fdf", "#dfd"]

/-- The source language's Set constructor spread over a list: the unique
elements in first-seen order. -/
def uniqueFirstSeen (xs : List String) : List String :=
  xs.foldl (fun acc x => if x ∈ acc then acc else acc ++ [x]) []

/-- The source language's remainder operator: truncated toward zero (so
-1 % 6 is -1 there, unlike the mathematical modulus). -/
def jsMod (a b : Int) : Int :=
  Int.tmod a b

/-- The source language's array subscript: undefined (none) for a
negative or out-of-range index. -/
def jsArrayGet (xs : List String) (i : Int) : Option String :=
  if i < 0 then none else xs.get? i.toNat

/-- The color assigner of ScheduleTable.tsx lines 52-56: collect the set
of unique lecture ids of the schedule list (first-seen order), then look
up colors[lectures.indexOf(lectureId) % colors.length]. -/
def getColor (schedules : List Schedule) (lectureId : String) : Option String :=
  let lectures := uniqueFirstSeen (schedules.map (fun s => s.lecture.id))
  jsArrayGet colors (jsMod (jsIndexOf lectures lectureId) (colors.length : Int))

theorem mem_uniqueFirstSeen_aux (xs acc : List String) (x : String) :
    x ∈ xs.foldl (fun acc x => if x ∈ acc then acc else acc ++ [x]) acc ↔
      x ∈ acc ∨ x ∈ xs := by
  induction xs generalizing acc with
  | nil => simp
  | cons y ys ih =>
    simp only [List.foldl_cons, List.mem_cons, ih]
    by_cases hy : y ∈ acc
    · simp only [if_pos hy]
      constructor
      · tauto
      · rintro (h | h | h)
        · tauto
        · subst h
          tauto
        · tauto
    · simp only [if_neg hy, List.mem_append, List.mem_singleton]
      tauto

theorem mem_uniqueFirstSeen (xs : List String) (x : String) :
    x ∈ uniqueFirstSeen xs ↔ x ∈ xs := by
  unfold uniqueFirstSeen
  rw [mem_uniqueFirstSeen_aux]
  simp

/-- The seven-unique-lecture schedule list of the spec's cycling
scenario: lecture ids L0 through L6, one schedule each. -/
def sevenSchedules : List Schedule :=
  ["L0", "L1", "L2", "L3", "L4", "L5", "L6"].map
    (fun i => { day := "월", range := [1], room := "", lecture := { id := i, title := "" } })

/-- C2: for a lecture id occurring in the schedule list, getColor is the
palette entry at the id's first-seen-order index modulo the palette size
(6); consequently, on a list with 7 unique ids L0..L6 in first-seen
order, L0 and L6 get the same color. -/
theorem getColor_palette_cycle :
    (∀ s id, id ∈ s.map (fun sc => sc.lecture.id) →
      getColor s id =
        colors.get?
          ((uniqueFirstSeen (s.map (fun sc => sc.lecture.id))).indexOf id %
            colors.length)) ∧
    (getColor sevenSchedules "L0" = getColor sevenSchedules "L6" ∧
      getColor sevenSchedules "L0" = some "#fdd") := by
  constructor
  · intro s id hmem
    have hmem2 : id ∈ uniqueFirstSeen (s.map (fun sc => sc.lecture.id)) :=
      (mem_uniqueFirstSeen _ _).mpr hmem
    simp only [getColor, jsIndexOf, if_pos hmem2, jsMod, jsArrayGet]
    rw [← Int.ofNat_tmod]
    rw [if_neg (by omega)]
    congr 1
  · exact ⟨by decide, by decide⟩

/-- Witness for C2: on the seven-lecture list, L3 sits at first-seen
index 3 and gets colors[3 % 6] = "#ddf". -/
theorem getColor_palette_cycle_witness :
    getColor sevenSchedules "L3" =
      colors.get?
        ((uniqueFirstSeen (sevenSchedules.map (fun sc => sc.lecture.id))).indexOf "L3" %
          colors.length) :=
  getColor_palette_cycle.left sevenSchedules "L3" (by decide)

/-- C8: for a fixed schedule list, the color assigner is deterministic —
two calls with the same lecture id return the same token — and the token
depends only on the list of lecture ids of the snapshot, so any two
snapshots with the same lecture-id projection color every id alike. -/
theorem getColor_deterministic :
    (∀ s id, getColor s id = getColor s id) ∧
    (∀ s1 s2, s1.map (fun sc => sc.lecture.id) = s2.map (fun sc => sc.lecture.id) →
      ∀ id, getColor s1 id = getColor s2 id) := by
  constructor
  · intro s id
    rfl
  · intro s1 s2 h id
    simp only [getColor, h]

/-- Witness for C8: two snapshots holding lecture "L" under different
days, rooms and titles color "L" identically. -/
theorem getColor_deterministic_witness :
    getColor [{ day := "월", range := [1], room := "A",
                lecture := { id := "L", title := "x" } }] "L" =
      getColor [{ day := "화", range := [2, 3], room := "B",
                  lecture := { id := "L", title := "y" } }] "L" :=
  getColor_deterministic.right _ _ (by decide) "L"

/-- C10: a lecture id absent from the schedule list gets no palette
token: indexOf yields -1, -1 % 6 is -1 under truncated remainder, and the
palette access is undefined (none), with no error and no fallback color. -/
theorem getColor_absent_id_undefined (s : List Schedule) (id : String)
    (h : id ∉ s.map (fun sc => sc.lecture.id)) :
    getColor s id = none := by
  have h2 : id ∉ uniqueFirstSeen (s.map (fun sc => sc.lecture.id)) :=
    fun hmem => h ((mem_uniqueFirstSeen _ _).mp hmem)
  simp only [getColor, jsIndexOf, if_neg h2, jsMod, jsArrayGet]
  decide

/-- Witness for C10: the id "ghost" is absent from the seven-lecture
list, so getColor returns no token. -/
theorem getColor_absent_id_undefined_witness :
    getColor sevenSchedules "ghost" = none :=
  getColor_absent_id_undefined sevenSchedules "ghost" (by decide)

/-- The payload of a grid click target (ScheduleTable.tsx line 126): the
cell at 0-based row timeIndex in column day reports a 1-based time. -/
structure TimeInfo where
  day : String
  time : Nat
  deriving DecidableEq, Repr

/-- The single onScheduleTimeClick invocation a grid cell's click handler
makes (the list of calls one click emits). -/
def cellClickEmits (day : String) (timeIndex : Nat) : List TimeInfo :=
  [{ day := day, time := timeIndex + 1 }]

/-- The grid's clickable cells (ScheduleTable.tsx lines 107-130): one per
time row (outer) and day column (inner), identified by (day, 0-based row
index). -/
def gridCells : List (String × Nat) :=
  (List.range TIMES.length).flatMap
    (fun timeIndex => DAY_LABELS.map (fun day => (day, timeIndex)))

/-- C3: the grid holds exactly one click cell for each valid (day, row)
pair, and clicking it calls onScheduleTimeClick exactly once with
{day, time = rowIndex + 1}. -/
theorem grid_cell_click_reports_once (d : String) (i : Nat)
    (hd : d ∈ DAY_LABELS) (hi : i < TIMES.length) :
    cellClickEmits d i = [{ day := d, time := i + 1 }] ∧
    gridCells.count (d, i) = 1 := by
  refine ⟨rfl, ?_⟩
  fin_cases hd <;> revert i <;> exact (by decide)

/-- Witness for C3: the spec's scenario, the cell at row index 5 for day
"월" reports one call with {day = "월", time = 6}. -/
theorem grid_cell_click_reports_once_witness :
    cellClickEmits "월" 5 = [{ day := "월", time := 6 }] ∧
    gridCells.count ("월", 5) = 1 :=
  grid_cell_click_reports_once "월" 5 (by decide) (by decide)

/-- The first split segment of the drag id: the characters before the
first ":" (what String(activeId).split(":")[0] yields). -/
def headBeforeColon (s : String) : String :=
  String.mk (s.data.takeWhile (fun c => c != ':'))

/-- The active-table derivation of ScheduleTable.tsx lines 64-70: when
the shared drag context holds a truthy active id, the table id is the
substring before the first ":"; otherwise null. The empty string is
falsy in the source language, hence also yields null. -/
def activeTableId (activeId : Option String) : Option String :=
  match activeId with
  | none => none
  | some s => if s = "" then none else some (headBeforeColon s)

/-- The highlight outline condition of ScheduleTable.tsx line 83: the
table shows the outline exactly when activeTableId equals its own id. -/
def showsOutline (activeId : Option String) (tableId : String) : Bool :=
  match activeTableId activeId with
  | some t => t == tableId
  | none => false

theorem takeWhile_append_colon (l r : List Char) (h : ∀ c ∈ l, c ≠ ':') :
    (l ++ ':' :: r).takeWhile (fun c => c != ':') = l := by
  induction l with
  | nil => simp [List.takeWhile]
  | cons x xs ih =>
    have hx : x ≠ ':' := h x (by simp)
    simp [List.takeWhile_cons, hx, ih (fun c hc => h c (by simp [hc]))]

/-- C5: an active drag id of the form "{tableId}:{scheduleIndex}" derives
the substring before the first ":" as the active table id, and exactly
the table with that id shows the highlight outline; a null drag id
derives a null active table id, and no table shows the outline. -/
theorem active_table_derivation :
    (∀ (tid : String) (idx : Nat), tid ≠ "" → (∀ c ∈ tid.data, c ≠ ':') →
      activeTableId (some (tid ++ ":" ++ toString idx)) = some tid ∧
      ∀ t, showsOutline (some (tid ++ ":" ++ toString idx)) t = true ↔ t = tid) ∧
    (activeTableId none = none ∧ ∀ t, showsOutline none t = false) := by
  constructor
  · intro tid idx hne hcol
    have hcolon : (":" : String).data = [':'] := rfl
    have hdata : (tid ++ ":" ++ toString idx).data =
        tid.data ++ ':' :: (toString idx).data := by
      rw [String.data_append, String.data_append, hcolon, List.append_assoc]
      simp
    have hnil : tid ++ ":" ++ toString idx ≠ "" := by
      intro h
      have h2 := congrArg String.data h
      rw [hdata] at h2
      simp at h2
    have hhead : headBeforeColon (tid ++ ":" ++ toString idx) = tid := by
      unfold headBeforeColon
      rw [hdata, takeWhile_append_colon _ _ hcol]
    constructor
    · simp only [activeTableId, if_neg hnil, hhead]
    · intro t
      simp only [showsOutline, activeTableId, if_neg hnil, hhead,
        beq_iff_eq]
      exact eq_comm
  · exact ⟨rfl, fun t => rfl⟩

/-- Witness for C5: the spec's scenario, dragging "tableA:2" sets the
active table to "tableA" and that table shows the outline. -/
theorem active_table_derivation_witness :
    activeTableId (some ("tableA" ++ ":" ++ toString 2)) = some "tableA" ∧
    showsOutline (some ("tableA" ++ ":" ++ toString 2)) "tableA" = true :=
  ⟨(active_table_derivation.left "tableA" 2 (by decide) (by decide)).left,
   ((active_table_derivation.left "tableA" 2 (by decide) (by decide)).right
      "tableA").mpr rfl⟩
